import Mathlib

/- Verification development for two source files of the repository:
   OpenRooms embeds the room view routing store (the OpenRoomsStore class and the
   matchesRoom helper), and Invite embeds the failure aggregation step of
   RoomInvite.js (the function _showAnyInviteErrors).  Machine state is passed
   explicitly; asynchronous completions re-enter the model as further dispatched
   actions, exactly as they re-enter the dispatcher in the source. -/

namespace OpenRooms

/-- Modelled from the spec: RoomViewStore, the per-room view store, is not part of
the excerpt.  The spec treats it as an opaque collaborator whose observable state
reflects the room id (and alias) of the view_room action most recently dispatched
on the private dispatcher of the entry owning it. -/
structure RoomViewStoreState where
  roomId : Option String
  roomAlias : Option String
deriving DecidableEq

/-- Actions handled by OpenRoomsStore.__onDispatch.  The view_group_grid action
carries the answer of the external GroupStore.getGroupRooms query as part of the
action, since the group membership index is an external collaborator.  The eight
lifecycle passthrough actions (will_join, cancel_join, join_room, join_room_error,
on_logged_out, reply_to_event, open_room_settings, close_settings) behave
identically in the source switch and are a single constructor here; `other`
covers every action name absent from the switch (for example send_event). -/
inductive Action where
  | view_room (room_id : Option String) (room_alias : Option String)
  | view_room_error (room_id : Option String) (room_alias : Option String) (err : String)
  | view_my_groups
  | view_group
  | lifecycle_passthrough
  | forward_event (event : String)
  | view_group_grid (group_id : String) (groupRooms : List String)
  | other
deriving DecidableEq

/-- Modelled from the spec: a RoomViewStore records the room id and alias carried
by a view_room action arriving on its private dispatcher; every other action is
opaque to this model of the store. -/
def storeHandle (store : RoomViewStoreState) (a : Action) : RoomViewStoreState :=
  match a with
  | .view_room rid ral => { roomId := rid, roomAlias := ral }
  | _ => store

/-- The state of a freshly constructed RoomViewStore (no room id, no alias). -/
def freshRoomViewStore : RoomViewStoreState :=
  { roomId := none, roomAlias := none }

/-- Room View Entry: a store paired with its private dispatcher.  `eid` is the
identity of the pair (the source allocates one fresh MatrixDispatcher per entry);
it also stands for the dispatch token handed back on unregister. -/
structure Entry where
  eid : Nat
  store : RoomViewStoreState
deriving DecidableEq

/-- Router State of OpenRoomsStore (_state plus _forwardingEvent), together with
bookkeeping making identity observable: `counter` is the fresh identity
allocator and `unregistered` records the dispatch tokens unregistered so far. -/
structure OpenRoomsState where
  rooms : List Entry
  currentIndex : Option Nat
  group_id : Option String
  forwardingEvent : Option String
  counter : Nat
  unregistered : List Nat
deriving DecidableEq

/-- JS truthiness of an optional string field (absent and the empty string are
falsy). -/
def truthy : Option String → Bool
  | none => false
  | some s => s != ""

/-- The matchesRoom helper of the source: no store never matches; when the
payload carries a (truthy) room alias compare aliases, otherwise compare the
payload room id with the room id of the store. -/
def matchesRoom (room_id room_alias : Option String)
    (roomStore : Option RoomViewStoreState) : Bool :=
  match roomStore with
  | none => false
  | some store =>
      if truthy room_alias then room_alias == store.roomAlias
      else room_id == store.roomId

/-- The method _getCurrentRoom: the entry at currentIndex, guarded by the index
being non-null and below the length of rooms. -/
def getCurrentRoom (s : OpenRoomsState) : Option Entry :=
  match s.currentIndex with
  | none => none
  | some i => if i < s.rooms.length then s.rooms[i]? else none

/-- The read accessor getCurrentRoomStore: the store of the current entry if one
exists. -/
def getCurrentRoomStore (s : OpenRoomsState) : Option RoomViewStoreState :=
  match getCurrentRoom s with
  | some currentRoom => some currentRoom.store
  | none => none

/-- The read accessor getRoomStores: the stores of all entries. -/
def getRoomStores (s : OpenRoomsState) : List RoomViewStoreState :=
  s.rooms.map (fun r => r.store)

/-- The method _roomIndex: index of the first entry whose store matches the
payload (findIndex; none stands for the -1 of the source).  The method _hasRoom
is isSome of this. -/
def roomIndex? (room_id room_alias : Option String) : List Entry → Option Nat
  | [] => none
  | e :: rest =>
      if matchesRoom room_id room_alias (some e.store) then some 0
      else (roomIndex? room_id room_alias rest).map (fun k => k + 1)

/-- The method _cleanupRooms: unregister every entry from its private dispatcher,
then reset rooms, group_id and currentIndex. -/
def cleanupRooms (s : OpenRoomsState) : OpenRoomsState :=
  { s with
    unregistered := s.unregistered ++ s.rooms.map (fun e => e.eid)
    rooms := []
    group_id := none
    currentIndex := none }

/-- The method _createRoom: a fresh dispatcher and a fresh RoomViewStore become
the sole entry, currentIndex 0.  The merge done by _setState touches only the
rooms and currentIndex fields, so in particular group_id keeps its value. -/
def createRoom (s : OpenRoomsState) : OpenRoomsState :=
  { s with
    rooms := [{ eid := s.counter, store := freshRoomViewStore }]
    currentIndex := some 0
    counter := s.counter + 1 }

/-- The method _forwardAction: dispatch the payload on the private dispatcher of
the current entry, if there is one; the store of that entry handles it. -/
def forwardAction (s : OpenRoomsState) (a : Action) : OpenRoomsState :=
  match s.currentIndex with
  | none => s
  | some i =>
      match s.rooms[i]? with
      | some e => { s with rooms := s.rooms.set i { e with store := storeHandle e.store a } }
      | none => s

/-- The catch handler of _resolveRoomAlias: build the view_room_error payload and
hand it to _forwardAction.  The returned list records which private dispatchers
(by entry identity) received the payload. -/
def resolveRoomAliasFailure (s : OpenRoomsState) (room_alias err : String) :
    OpenRoomsState × List (Nat × Action) :=
  let payload := Action.view_room_error none (some room_alias) err
  (forwardAction s payload,
    ((getCurrentRoom s).map (fun currentRoom => (currentRoom.eid, payload))).toList)

/-- First stage of the view_room case of __onDispatch: when the payload matches
the current store, either switch currentIndex to the index of the matching entry
or, when no entry matches, clean up all rooms. -/
def viewRoomSwitch (s : OpenRoomsState) (rid ral : Option String) : OpenRoomsState :=
  if matchesRoom rid ral (getCurrentRoomStore s) then
    match roomIndex? rid ral s.rooms with
    | some roomIndex => { s with currentIndex := some roomIndex }
    | none => cleanupRooms s
  else s

/-- Second stage of the view_room case: when there is no current store, create
the sole fresh entry. -/
def viewRoomEnsure (s : OpenRoomsState) : OpenRoomsState :=
  if (getCurrentRoomStore s).isNone then createRoom s else s

/-- Third stage of the view_room case: forward the payload to the current entry,
then, if a forwarding event is pending, dispatch a send_event for it on the
global dispatcher (a no-op for this store) and clear the pending event. -/
def viewRoomFinish (s : OpenRoomsState) (rid ral : Option String) : OpenRoomsState :=
  let s3 := forwardAction s (.view_room rid ral)
  if s3.forwardingEvent.isSome then { s3 with forwardingEvent := none } else s3

/-- The view_room case of __onDispatch (the kickoff of the asynchronous alias
resolution performs no synchronous state change; its completion re-enters as a
further dispatched action, its failure as resolveRoomAliasFailure). -/
def onViewRoom (s : OpenRoomsState) (rid ral : Option String) : OpenRoomsState :=
  viewRoomFinish (viewRoomEnsure (viewRoomSwitch s rid ral)) rid ral

/-- The entries built in the view_group_grid case: one fresh dispatcher and one
fresh store per member room, the store preloaded by a synchronous view_room
dispatch on its private dispatcher carrying the room id of that member room. -/
def mkGridEntries (c : Nat) : List String → List Entry
  | [] => []
  | r :: rest =>
      { eid := c, store := storeHandle freshRoomViewStore (.view_room (some r) none) }
        :: mkGridEntries (c + 1) rest

/-- The method __onDispatch of OpenRoomsStore, as a function on Router State. -/
def onDispatch (s : OpenRoomsState) : Action → OpenRoomsState
  | .view_room rid ral => onViewRoom s rid ral
  | .view_my_groups => cleanupRooms (forwardAction s .view_my_groups)
  | .view_group => cleanupRooms (forwardAction s .view_group)
  | .lifecycle_passthrough => forwardAction s .lifecycle_passthrough
  | .forward_event e => { s with forwardingEvent := some e }
  | .view_group_grid gid groupRooms =>
      if s.group_id = some gid then s
      else
        let s1 := cleanupRooms s
        { s1 with
          rooms := mkGridEntries s1.counter groupRooms
          group_id := some gid
          counter := s1.counter + groupRooms.length
          currentIndex := some 0 }
  | .view_room_error _ _ _ => s
  | .other => s

/-- The state the constructor of OpenRoomsStore initialises. -/
def initialState : OpenRoomsState :=
  { rooms := []
    currentIndex := none
    group_id := none
    forwardingEvent := none
    counter := 0
    unregistered := [] }

/-- States reachable from the initial state by dispatched actions. -/
inductive Reachable : OpenRoomsState → Prop
  | init : Reachable initialState
  | step (s : OpenRoomsState) (a : Action) : Reachable s → Reachable (onDispatch s a)

/-- The index part of the Router State invariant claimed by the spec, amended:
a non-null currentIndex is in range except that rooms may be empty with
currentIndex 0. -/
def indexInvariant (s : OpenRoomsState) : Prop :=
  ∀ i, s.currentIndex = some i → i < s.rooms.length ∨ (i = 0 ∧ s.rooms.length = 0)

/-- Every entry identity was allocated below the counter. -/
def eidInvariant (s : OpenRoomsState) : Prop :=
  ∀ n ∈ s.rooms.map (fun e => e.eid), n < s.counter

end OpenRooms

namespace Invite

/-- The multi-address inviter as _showAnyInviteErrors consumes it: whether the
batch failed fatally after the first error, and the per-address error text. -/
structure Inviter where
  fatal : Bool
  getErrorText : String → String

/-- The shape of the error report dialog shown by _showAnyInviteErrors: either a
single message (the fatal single-failure shortcut) or the list of per-address
messages.  The localized dialog titles carrying the room name are display text
and are not modelled. -/
inductive InviteErrorReport where
  | single (description : String)
  | multi (errorList : List String)
deriving DecidableEq

/-- The failedUsers computation of _showAnyInviteErrors: the addresses of the
result set whose outcome reads the string error.  The result set is the object
mapping address to outcome, kept here as an association list in key order. -/
def failedAddresses (addrs : List (String × String)) : List String :=
  (addrs.map Prod.fst).filter (fun a => List.lookup a addrs == some "error")

/-- The errorList loop of _showAnyInviteErrors: over the failed addresses,
re-check the outcome and render the address paired with its own error text. -/
def inviteErrorList (addrs : List (String × String)) (inviter : Inviter) : List String :=
  ((failedAddresses addrs).filter (fun a => List.lookup a addrs == some "error")).map
    (fun a => a ++ ": " ++ inviter.getErrorText a)

/-- The function _showAnyInviteErrors: show the fatal single-failure report, or
the report listing every failed address, or no report; always return the result
set unchanged. -/
def showAnyInviteErrors (addrs : List (String × String)) (inviter : Inviter) :
    Option InviteErrorReport × List (String × String) :=
  if (failedAddresses addrs).length = 1 ∧ inviter.fatal = true then
    (some (.single (inviter.getErrorText ((failedAddresses addrs).headD ""))), addrs)
  else if (inviteErrorList addrs inviter).length > 0 then
    (some (.multi (inviteErrorList addrs inviter)), addrs)
  else (none, addrs)

end Invite

theorem list_getq_none {α : Type} :
    ∀ (l : List α) (i : Nat), l.length ≤ i → l[i]? = none := by
  intro l
  induction l with
  | nil => intro i _; simp
  | cons a rest ih =>
    intro i h
    cases i with
    | zero => simp [List.length_cons] at h
    | succ n => simpa using ih n (Nat.le_of_succ_le_succ h)

theorem list_getq_lt {α : Type} :
    ∀ (l : List α) (i : Nat), i < l.length → ∃ x, l[i]? = some x := by
  intro l
  induction l with
  | nil => intro i h; simp at h
  | cons a rest ih =>
    intro i h
    cases i with
    | zero => exact ⟨a, by simp⟩
    | succ n =>
      obtain ⟨x, hx⟩ := ih n (Nat.lt_of_succ_lt_succ h)
      exact ⟨x, by simpa using hx⟩

theorem list_lt_of_getq {α : Type} :
    ∀ (l : List α) (i : Nat) (x : α), l[i]? = some x → i < l.length := by
  intro l
  induction l with
  | nil => intro i x h; simp at h
  | cons a rest ih =>
    intro i x h
    cases i with
    | zero => exact Nat.succ_pos _
    | succ n => exact Nat.succ_lt_succ (ih n x (by simpa using h))

theorem list_set_self {α : Type} :
    ∀ (l : List α) (i : Nat) (x : α), l[i]? = some x → l.set i x = l := by
  intro l
  induction l with
  | nil => intro i x h; simp at h
  | cons a rest ih =>
    intro i x h
    cases i with
    | zero =>
      simp at h
      subst h
      rfl
    | succ n =>
      show a :: rest.set n x = a :: rest
      rw [ih n x (by simpa using h)]

theorem list_map_set {α β : Type} (f : α → β) :
    ∀ (l : List α) (i : Nat) (x y : α), l[i]? = some x → f y = f x →
      (l.set i y).map f = l.map f := by
  intro l
  induction l with
  | nil => intro i x y h _; simp at h
  | cons a rest ih =>
    intro i x y h hf
    cases i with
    | zero =>
      simp at h
      subst h
      show f y :: rest.map f = f a :: rest.map f
      rw [hf]
    | succ n =>
      show f a :: (rest.set n y).map f = f a :: rest.map f
      rw [ih n x y (by simpa using h) hf]

theorem list_mem_set {α : Type} :
    ∀ (l : List α) (i : Nat) (y x : α), x ∈ l.set i y → x ∈ l ∨ x = y := by
  intro l
  induction l with
  | nil => intro i y x h; simp [List.set] at h
  | cons a rest ih =>
    intro i y x h
    cases i with
    | zero =>
      have h2 : x ∈ y :: rest := h
      rcases List.mem_cons.mp h2 with h3 | h3
      · right; exact h3
      · left; exact List.mem_cons_of_mem a h3
    | succ n =>
      have h2 : x ∈ a :: rest.set n y := h
      rcases List.mem_cons.mp h2 with h3 | h3
      · left; simp [h3]
      · rcases ih n y x h3 with h4 | h4
        · left; exact List.mem_cons_of_mem a h4
        · right; exact h4

theorem list_filter_idem {α : Type} (p : α → Bool) :
    ∀ l : List α, (l.filter p).filter p = l.filter p := by
  intro l
  induction l with
  | nil => rfl
  | cons a rest ih => cases h : p a <;> simp [List.filter_cons, h, ih]

namespace OpenRooms

theorem cleanupRooms_group_id (s : OpenRoomsState) : (cleanupRooms s).group_id = none := rfl

theorem cleanupRooms_currentIndex (s : OpenRoomsState) :
    (cleanupRooms s).currentIndex = none := rfl

theorem cleanupRooms_rooms (s : OpenRoomsState) : (cleanupRooms s).rooms = [] := rfl

theorem cleanupRooms_counter (s : OpenRoomsState) : (cleanupRooms s).counter = s.counter := rfl

theorem createRoom_group_id (s : OpenRoomsState) : (createRoom s).group_id = s.group_id := rfl

theorem forwardAction_currentIndex (s : OpenRoomsState) (a : Action) :
    (forwardAction s a).currentIndex = s.currentIndex := by
  unfold forwardAction
  split
  · rfl
  · split <;> rfl

theorem forwardAction_group_id (s : OpenRoomsState) (a : Action) :
    (forwardAction s a).group_id = s.group_id := by
  unfold forwardAction
  split
  · rfl
  · split <;> rfl

theorem forwardAction_counter (s : OpenRoomsState) (a : Action) :
    (forwardAction s a).counter = s.counter := by
  unfold forwardAction
  split
  · rfl
  · split <;> rfl

theorem forwardAction_unregistered (s : OpenRoomsState) (a : Action) :
    (forwardAction s a).unregistered = s.unregistered := by
  unfold forwardAction
  split
  · rfl
  · split <;> rfl

theorem forwardAction_forwardingEvent (s : OpenRoomsState) (a : Action) :
    (forwardAction s a).forwardingEvent = s.forwardingEvent := by
  unfold forwardAction
  split
  · rfl
  · split <;> rfl

theorem forwardAction_length (s : OpenRoomsState) (a : Action) :
    (forwardAction s a).rooms.length = s.rooms.length := by
  unfold forwardAction
  split
  · rfl
  · split
    · simp [List.length_set]
    · rfl

theorem forwardAction_map_eid (s : OpenRoomsState) (a : Action) :
    (forwardAction s a).rooms.map (fun e => e.eid) = s.rooms.map (fun e => e.eid) := by
  unfold forwardAction
  split
  · rfl
  · split
    next e he =>
      have hf : Entry.eid { e with store := storeHandle e.store a } = Entry.eid e := rfl
      exact list_map_set (fun e2 => e2.eid) s.rooms _ e
        { e with store := storeHandle e.store a } he hf
    next => rfl

end OpenRooms

namespace OpenRooms

theorem roomIndex_lt (rid ral : Option String) :
    ∀ (l : List Entry) (j : Nat), roomIndex? rid ral l = some j → j < l.length := by
  intro l
  induction l with
  | nil => intro j h; simp [roomIndex?] at h
  | cons e rest ih =>
    intro j h
    simp only [roomIndex?] at h
    by_cases hm : matchesRoom rid ral (some e.store) = true
    · rw [if_pos hm] at h
      cases h
      exact Nat.succ_pos _
    · rw [if_neg hm] at h
      cases hr : roomIndex? rid ral rest with
      | none => rw [hr] at h; simp at h
      | some k =>
        rw [hr] at h
        simp only [Option.map_some'] at h
        cases h
        exact Nat.succ_lt_succ (ih k hr)

theorem getCurrentRoom_some (s : OpenRoomsState) (j : Nat) (e : Entry)
    (hci : s.currentIndex = some j) (he : s.rooms[j]? = some e) :
    getCurrentRoom s = some e := by
  unfold getCurrentRoom
  rw [hci]
  show (if j < s.rooms.length then s.rooms[j]? else none) = some e
  rw [if_pos (list_lt_of_getq s.rooms j e he)]
  exact he

theorem getCurrentRoom_none (s : OpenRoomsState)
    (h : ∀ i, s.currentIndex = some i → s.rooms.length ≤ i) :
    getCurrentRoom s = none := by
  unfold getCurrentRoom
  cases hci : s.currentIndex with
  | none => rfl
  | some i =>
    show (if i < s.rooms.length then s.rooms[i]? else none) = none
    rw [if_neg (Nat.not_lt.mpr (h i hci))]

theorem getCurrentRoomStore_some (s : OpenRoomsState) (j : Nat) (e : Entry)
    (hci : s.currentIndex = some j) (he : s.rooms[j]? = some e) :
    getCurrentRoomStore s = some e.store := by
  unfold getCurrentRoomStore
  rw [getCurrentRoom_some s j e hci he]

theorem getCurrentRoomStore_none (s : OpenRoomsState)
    (h : getCurrentRoom s = none) : getCurrentRoomStore s = none := by
  unfold getCurrentRoomStore
  rw [h]

theorem viewRoomSwitch_group_id (s : OpenRoomsState) (rid ral : Option String) :
    (viewRoomSwitch s rid ral).group_id = s.group_id
      ∨ (viewRoomSwitch s rid ral).group_id = none := by
  unfold viewRoomSwitch
  split
  · split
    · left; rfl
    · right; rfl
  · left; rfl

theorem viewRoomEnsure_group_id (s : OpenRoomsState) :
    (viewRoomEnsure s).group_id = s.group_id := by
  unfold viewRoomEnsure
  split
  · rfl
  · rfl

theorem viewRoomFinish_group_id (s : OpenRoomsState) (rid ral : Option String) :
    (viewRoomFinish s rid ral).group_id = s.group_id := by
  simp only [viewRoomFinish]
  split
  · exact forwardAction_group_id s _
  · exact forwardAction_group_id s _

theorem viewRoomFinish_currentIndex (s : OpenRoomsState) (rid ral : Option String) :
    (viewRoomFinish s rid ral).currentIndex = s.currentIndex := by
  simp only [viewRoomFinish]
  split
  · exact forwardAction_currentIndex s _
  · exact forwardAction_currentIndex s _

theorem viewRoomFinish_length (s : OpenRoomsState) (rid ral : Option String) :
    (viewRoomFinish s rid ral).rooms.length = s.rooms.length := by
  simp only [viewRoomFinish]
  split
  · exact forwardAction_length s _
  · exact forwardAction_length s _

theorem viewRoomFinish_map_eid (s : OpenRoomsState) (rid ral : Option String) :
    (viewRoomFinish s rid ral).rooms.map (fun e => e.eid)
      = s.rooms.map (fun e => e.eid) := by
  simp only [viewRoomFinish]
  split
  · exact forwardAction_map_eid s _
  · exact forwardAction_map_eid s _

theorem viewRoomFinish_counter (s : OpenRoomsState) (rid ral : Option String) :
    (viewRoomFinish s rid ral).counter = s.counter := by
  simp only [viewRoomFinish]
  split
  · exact forwardAction_counter s _
  · exact forwardAction_counter s _

theorem viewRoomFinish_unregistered (s : OpenRoomsState) (rid ral : Option String) :
    (viewRoomFinish s rid ral).unregistered = s.unregistered := by
  simp only [viewRoomFinish]
  split
  · exact forwardAction_unregistered s _
  · exact forwardAction_unregistered s _

theorem onViewRoom_group_id (s : OpenRoomsState) (rid ral : Option String) :
    (onViewRoom s rid ral).group_id = s.group_id
      ∨ (onViewRoom s rid ral).group_id = none := by
  unfold onViewRoom
  rw [viewRoomFinish_group_id, viewRoomEnsure_group_id]
  exact viewRoomSwitch_group_id s rid ral

theorem indexInvariant_viewRoomSwitch (s : OpenRoomsState) (rid ral : Option String)
    (h : indexInvariant s) : indexInvariant (viewRoomSwitch s rid ral) := by
  unfold viewRoomSwitch
  split
  · split
    next j hj =>
      intro i hi
      have hi2 : some j = some i := hi
      cases hi2
      left
      exact roomIndex_lt rid ral s.rooms j hj
    next hj =>
      intro i hi
      exact Option.noConfusion (show (none : Option Nat) = some i from hi)
  · exact h

theorem indexInvariant_viewRoomEnsure (s : OpenRoomsState)
    (h : indexInvariant s) : indexInvariant (viewRoomEnsure s) := by
  unfold viewRoomEnsure
  split
  · intro i hi
    have hi2 : some 0 = some i := hi
    cases hi2
    left
    exact Nat.succ_pos 0
  · exact h

theorem indexInvariant_viewRoomFinish (s : OpenRoomsState) (rid ral : Option String)
    (h : indexInvariant s) : indexInvariant (viewRoomFinish s rid ral) := by
  intro i hi
  rw [viewRoomFinish_currentIndex] at hi
  rw [viewRoomFinish_length]
  exact h i hi

end OpenRooms

namespace OpenRooms

theorem mkGridEntries_length :
    ∀ (rs : List String) (c : Nat), (mkGridEntries c rs).length = rs.length := by
  intro rs
  induction rs with
  | nil => intro c; rfl
  | cons r rest ih => intro c; simp [mkGridEntries, ih]

theorem mkGridEntries_map_store :
    ∀ (rs : List String) (c : Nat),
      (mkGridEntries c rs).map (fun e => e.store)
        = rs.map (fun r => storeHandle freshRoomViewStore (.view_room (some r) none)) := by
  intro rs
  induction rs with
  | nil => intro c; rfl
  | cons r rest ih => intro c; simp [mkGridEntries, ih]

theorem mkGridEntries_map_roomId :
    ∀ (rs : List String) (c : Nat),
      (mkGridEntries c rs).map (fun e => e.store.roomId) = rs.map some := by
  intro rs
  induction rs with
  | nil => intro c; rfl
  | cons r rest ih => intro c; simp [mkGridEntries, storeHandle, ih]

theorem mkGridEntries_eid_ge :
    ∀ (rs : List String) (c : Nat) (e : Entry), e ∈ mkGridEntries c rs → c ≤ e.eid := by
  intro rs
  induction rs with
  | nil => intro c e h; simp [mkGridEntries] at h
  | cons r rest ih =>
    intro c e h
    rw [mkGridEntries] at h
    rcases List.mem_cons.mp h with h3 | h3
    · have he : e.eid = c := by rw [h3]
      rw [he]
    · exact Nat.le_of_succ_le (ih (c + 1) e h3)

theorem mkGridEntries_eid_bound :
    ∀ (rs : List String) (c : Nat) (e : Entry),
      e ∈ mkGridEntries c rs → e.eid < c + rs.length := by
  intro rs
  induction rs with
  | nil => intro c e h; simp [mkGridEntries] at h
  | cons r rest ih =>
    intro c e h
    rw [mkGridEntries] at h
    rcases List.mem_cons.mp h with h3 | h3
    · have he : e.eid = c := by rw [h3]
      rw [he, List.length_cons]
      omega
    · have h4 := ih (c + 1) e h3
      rw [List.length_cons]
      omega

theorem indexInvariant_onDispatch (s : OpenRoomsState) (a : Action)
    (h : indexInvariant s) : indexInvariant (onDispatch s a) := by
  cases a with
  | view_room rid ral =>
    exact indexInvariant_viewRoomFinish _ rid ral
      (indexInvariant_viewRoomEnsure _ (indexInvariant_viewRoomSwitch s rid ral h))
  | view_my_groups =>
    intro i hi
    exact Option.noConfusion (show (none : Option Nat) = some i from hi)
  | view_group =>
    intro i hi
    exact Option.noConfusion (show (none : Option Nat) = some i from hi)
  | lifecycle_passthrough =>
    intro i hi
    rw [show (onDispatch s .lifecycle_passthrough) = forwardAction s .lifecycle_passthrough
      from rfl] at hi ⊢
    rw [forwardAction_currentIndex] at hi
    rw [forwardAction_length]
    exact h i hi
  | forward_event e =>
    intro i hi
    exact h i hi
  | view_room_error rid ral err => exact h
  | other => exact h
  | view_group_grid gid groupRooms =>
    simp only [onDispatch]
    split
    · exact h
    · intro i hi
      have hi2 : some 0 = some i := hi
      cases hi2
      rcases Nat.eq_zero_or_pos (mkGridEntries (cleanupRooms s).counter groupRooms).length
        with h0 | hpos
      · right; exact ⟨rfl, h0⟩
      · left; exact hpos

theorem eidInvariant_forwardAction (s : OpenRoomsState) (a : Action)
    (h : eidInvariant s) : eidInvariant (forwardAction s a) := by
  intro n hn
  rw [forwardAction_map_eid] at hn
  rw [forwardAction_counter]
  exact h n hn

theorem eidInvariant_viewRoomSwitch (s : OpenRoomsState) (rid ral : Option String)
    (h : eidInvariant s) : eidInvariant (viewRoomSwitch s rid ral) := by
  unfold viewRoomSwitch
  split
  · split
    · intro n hn; exact h n hn
    · intro n hn
      have hn2 : n ∈ ([] : List Entry).map (fun e => e.eid) := hn
      simp at hn2
  · exact h

theorem eidInvariant_viewRoomEnsure (s : OpenRoomsState)
    (h : eidInvariant s) : eidInvariant (viewRoomEnsure s) := by
  unfold viewRoomEnsure
  split
  · intro n hn
    have hn2 : n ∈ [s.counter] := hn
    rw [List.mem_singleton] at hn2
    subst hn2
    exact Nat.lt_succ_self s.counter
  · exact h

theorem eidInvariant_viewRoomFinish (s : OpenRoomsState) (rid ral : Option String)
    (h : eidInvariant s) : eidInvariant (viewRoomFinish s rid ral) := by
  intro n hn
  rw [viewRoomFinish_map_eid] at hn
  rw [viewRoomFinish_counter]
  exact h n hn

theorem eidInvariant_onDispatch (s : OpenRoomsState) (a : Action)
    (h : eidInvariant s) : eidInvariant (onDispatch s a) := by
  cases a with
  | view_room rid ral =>
    exact eidInvariant_viewRoomFinish _ rid ral
      (eidInvariant_viewRoomEnsure _ (eidInvariant_viewRoomSwitch s rid ral h))
  | view_my_groups =>
    intro n hn
    have hn2 : n ∈ ([] : List Entry).map (fun e => e.eid) := hn
    simp at hn2
  | view_group =>
    intro n hn
    have hn2 : n ∈ ([] : List Entry).map (fun e => e.eid) := hn
    simp at hn2
  | lifecycle_passthrough => exact eidInvariant_forwardAction s _ h
  | forward_event e => intro n hn; exact h n hn
  | view_room_error rid ral err => exact h
  | other => exact h
  | view_group_grid gid groupRooms =>
    simp only [onDispatch]
    split
    · exact h
    · intro n hn
      have hn2 : n ∈ (mkGridEntries s.counter groupRooms).map (fun e => e.eid) := hn
      rw [List.mem_map] at hn2
      obtain ⟨e, he, hed⟩ := hn2
      have hb := mkGridEntries_eid_bound groupRooms s.counter e he
      show n < s.counter + groupRooms.length
      omega

theorem reachable_indexInvariant (s : OpenRoomsState) (h : Reachable s) :
    indexInvariant s := by
  induction h with
  | init => intro i hi; exact Option.noConfusion (show (none : Option Nat) = some i from hi)
  | step s a _ ih => exact indexInvariant_onDispatch s a ih

theorem reachable_eidInvariant (s : OpenRoomsState) (h : Reachable s) :
    eidInvariant s := by
  induction h with
  | init =>
    intro n hn
    have hn2 : n ∈ ([] : List Entry).map (fun e => e.eid) := hn
    simp at hn2
  | step s a _ ih => exact eidInvariant_onDispatch s a ih

end OpenRooms

namespace OpenRooms

theorem forwardAction_id_of_storeHandle (s : OpenRoomsState) (a : Action)
    (ha : ∀ st : RoomViewStoreState, storeHandle st a = st) :
    forwardAction s a = s := by
  unfold forwardAction
  split
  · rfl
  · split
    next e he =>
      rw [ha e.store]
      have h3 : s.rooms.set _ { e with store := e.store } = s.rooms :=
        list_set_self s.rooms _ e he
      rw [h3]
    next => rfl

end OpenRooms

namespace Invite

theorem inviteErrorList_eq (addrs : List (String × String)) (inviter : Inviter) :
    inviteErrorList addrs inviter
      = (failedAddresses addrs).map (fun a => a ++ ": " ++ inviter.getErrorText a) := by
  unfold inviteErrorList failedAddresses
  rw [list_filter_idem]

end Invite

namespace OpenRooms

/-- Claim C1, as stated, is false on the code: dispatching view_group_grid for a
group whose membership query returns no rooms leaves rooms empty while
_setCurrentGroupRoom still sets currentIndex to 0, a dangling index.  This
refutes the claim that currentIndex, when not null, is always a valid index
into rooms for every reachable Router State. -/
theorem c1_counterexample :
    ¬ (∀ s : OpenRoomsState, Reachable s → ∀ i, s.currentIndex = some i →
        i < s.rooms.length) := by
  intro hall
  have h := hall (onDispatch initialState (.view_group_grid "g" []))
    (Reachable.step initialState (.view_group_grid "g" []) Reachable.init) 0 (by decide)
  have h2 : ¬ (0 < (onDispatch initialState (.view_group_grid "g" [])).rooms.length) := by
    decide
  exact h2 h

/-- Claim C1, amended: for every Router State reachable from the empty initial
state by any sequence of dispatched actions, if currentIndex is not null then
either it is a valid index into rooms, or rooms is empty and currentIndex is 0
(the state produced by a view_group_grid for a group with no member rooms). -/
theorem c1_index_valid_or_rooms_empty (s : OpenRoomsState) (hre : Reachable s)
    (i : Nat) (hi : s.currentIndex = some i) :
    i < s.rooms.length ∨ (i = 0 ∧ s.rooms = []) := by
  rcases reachable_indexInvariant s hre i hi with h | h
  · left; exact h
  · right; exact ⟨h.1, List.length_eq_zero.mp h.2⟩

/-- Witness for claim C1: the amended theorem applied to the reachable state
obtained by viewing one room from the initial state, whose currentIndex is 0. -/
theorem c1_index_valid_or_rooms_empty_witness :
    0 < (onDispatch initialState (.view_room (some "!a:hs") none)).rooms.length
      ∨ (0 = 0 ∧ (onDispatch initialState (.view_room (some "!a:hs") none)).rooms = []) :=
  c1_index_valid_or_rooms_empty (onDispatch initialState (.view_room (some "!a:hs") none))
    (Reachable.step initialState (.view_room (some "!a:hs") none) Reachable.init)
    0 (by decide)

/-- Claim C2, as stated, is false on the code: after view_group_grid for a group
with no member rooms (a reachable state with group_id set and no current store),
a view_room dispatch runs _createRoom, which replaces the room set with one sole
fresh entry but does not reset group_id, leaving a single open room with
group_id still set. -/
theorem c2_counterexample :
    ¬ (∀ (s : OpenRoomsState) (rid ral : Option String), Reachable s →
        (onDispatch s (.view_room rid ral)).rooms.length ≤ 1 →
        (onDispatch s (.view_room rid ral)).group_id = none) := by
  intro hall
  have h := hall (onDispatch initialState (.view_group_grid "g" [])) (some "!r:hs") none
    (Reachable.step initialState (.view_group_grid "g" []) Reachable.init) (by decide)
  have h2 : ¬ ((onDispatch (onDispatch initialState (.view_group_grid "g" []))
      (.view_room (some "!r:hs") none)).group_id = none) := by decide
  exact h2 h

/-- Claim C2, amended: view_room handling never sets group_id to a new non-null
value: the resulting group_id is either the previous one or null; in particular
when no grid was open before (group_id null), it stays null after any view_room
handling, including the handling that replaces the room set with one sole fresh
entry.  A previously set group_id, however, survives _createRoom. -/
theorem c2_view_room_never_sets_group (s : OpenRoomsState) (rid ral : Option String) :
    ((onDispatch s (.view_room rid ral)).group_id = s.group_id
      ∨ (onDispatch s (.view_room rid ral)).group_id = none)
    ∧ (s.group_id = none → (onDispatch s (.view_room rid ral)).group_id = none) := by
  have h := onViewRoom_group_id s rid ral
  constructor
  · exact h
  · intro hg
    rcases h with h2 | h2
    · exact (show (onDispatch s (.view_room rid ral)).group_id = s.group_id from h2).trans hg
    · exact h2

/-- Witness for claim C2: the amended theorem applied at the initial state and a
view_room carrying a concrete room id. -/
theorem c2_view_room_never_sets_group_witness :
    (((onDispatch initialState (.view_room (some "!a:hs") none)).group_id
        = initialState.group_id
      ∨ (onDispatch initialState (.view_room (some "!a:hs") none)).group_id = none)
    ∧ (initialState.group_id = none →
        (onDispatch initialState (.view_room (some "!a:hs") none)).group_id = none)) :=
  c2_view_room_never_sets_group initialState (some "!a:hs") none

end OpenRooms

namespace OpenRooms

/-- Claim C5 (confirmed): dispatching view_group_grid with a group_id different
from the current one replaces rooms entirely with one fresh entry per member
room, in the order returned by the group membership query, each entry store
initialised by the synchronous internal view_room dispatch carrying that room
id; group_id becomes the payload group_id and currentIndex becomes 0.  The
freshness of every new entry (no old entry reused) is expressed through the
identities: every new entry identity differs from every old one. -/
theorem c5_grid_rebuild (s : OpenRoomsState) (gid : String) (groupRooms : List String)
    (hre : Reachable s) (hg : s.group_id ≠ some gid) :
    (onDispatch s (.view_group_grid gid groupRooms)).rooms.map (fun e => e.store)
        = groupRooms.map (fun r => storeHandle freshRoomViewStore (.view_room (some r) none))
    ∧ (onDispatch s (.view_group_grid gid groupRooms)).rooms.map (fun e => e.store.roomId)
        = groupRooms.map some
    ∧ (onDispatch s (.view_group_grid gid groupRooms)).rooms.length = groupRooms.length
    ∧ (onDispatch s (.view_group_grid gid groupRooms)).group_id = some gid
    ∧ (onDispatch s (.view_group_grid gid groupRooms)).currentIndex = some 0
    ∧ (∀ e2 ∈ (onDispatch s (.view_group_grid gid groupRooms)).rooms,
        ∀ e1 ∈ s.rooms, e2.eid ≠ e1.eid) := by
  have key : onDispatch s (.view_group_grid gid groupRooms)
      = { cleanupRooms s with
          rooms := mkGridEntries (cleanupRooms s).counter groupRooms
          group_id := some gid
          counter := (cleanupRooms s).counter + groupRooms.length
          currentIndex := some 0 } := by
    simp only [onDispatch]
    rw [if_neg hg]
  refine ⟨?_, ?_, ?_, ?_, ?_, ?_⟩
  · rw [key]; exact mkGridEntries_map_store groupRooms _
  · rw [key]; exact mkGridEntries_map_roomId groupRooms _
  · rw [key]; exact mkGridEntries_length groupRooms _
  · rw [key]
  · rw [key]
  · intro e2 h2 e1 h1
    rw [key] at h2
    have hge : (cleanupRooms s).counter ≤ e2.eid := mkGridEntries_eid_ge groupRooms _ e2 h2
    have hlt : e1.eid < s.counter :=
      reachable_eidInvariant s hre e1.eid (List.mem_map_of_mem (fun e => e.eid) h1)
    have hc : (cleanupRooms s).counter = s.counter := rfl
    omega

/-- Witness for claim C5: the theorem applied at the initial state for a group
with two member rooms, every hypothesis discharged concretely. -/
theorem c5_grid_rebuild_witness :
    (onDispatch initialState (.view_group_grid "g" ["!r1:hs", "!r2:hs"])).rooms.map
        (fun e => e.store)
      = (["!r1:hs", "!r2:hs"] : List String).map
          (fun r => storeHandle freshRoomViewStore (.view_room (some r) none))
    ∧ (onDispatch initialState (.view_group_grid "g" ["!r1:hs", "!r2:hs"])).rooms.map
        (fun e => e.store.roomId)
      = (["!r1:hs", "!r2:hs"] : List String).map some
    ∧ (onDispatch initialState
        (.view_group_grid "g" ["!r1:hs", "!r2:hs"])).rooms.length
      = (["!r1:hs", "!r2:hs"] : List String).length
    ∧ (onDispatch initialState (.view_group_grid "g" ["!r1:hs", "!r2:hs"])).group_id
      = some "g"
    ∧ (onDispatch initialState (.view_group_grid "g" ["!r1:hs", "!r2:hs"])).currentIndex
      = some 0
    ∧ (∀ e2 ∈ (onDispatch initialState
          (.view_group_grid "g" ["!r1:hs", "!r2:hs"])).rooms,
        ∀ e1 ∈ initialState.rooms, e2.eid ≠ e1.eid) :=
  c5_grid_rebuild initialState "g" ["!r1:hs", "!r2:hs"] Reachable.init (by decide)

/-- Claim C6 (confirmed): a view_room action whose payload matches the current
room (by alias if the payload carries an alias, else by id), for which a
matching entry exists in rooms at index j, only switches currentIndex to j: the
entry identities of rooms are unchanged in order and number, nothing is
unregistered, no fresh store or dispatcher is allocated (the counter is
unchanged), and group_id is untouched. -/
theorem c6_switch_current_only (s : OpenRoomsState) (rid ral : Option String) (j : Nat)
    (hm : matchesRoom rid ral (getCurrentRoomStore s) = true)
    (hj : roomIndex? rid ral s.rooms = some j) :
    (onDispatch s (.view_room rid ral)).currentIndex = some j
    ∧ (onDispatch s (.view_room rid ral)).rooms.map (fun e => e.eid)
        = s.rooms.map (fun e => e.eid)
    ∧ (onDispatch s (.view_room rid ral)).rooms.length = s.rooms.length
    ∧ (onDispatch s (.view_room rid ral)).counter = s.counter
    ∧ (onDispatch s (.view_room rid ral)).unregistered = s.unregistered
    ∧ (onDispatch s (.view_room rid ral)).group_id = s.group_id := by
  have h1 : viewRoomSwitch s rid ral = { s with currentIndex := some j } := by
    unfold viewRoomSwitch
    rw [if_pos hm, hj]
  have hlt : j < s.rooms.length := roomIndex_lt rid ral s.rooms j hj
  obtain ⟨e, he⟩ := list_getq_lt s.rooms j hlt
  have h2 : viewRoomEnsure { s with currentIndex := some j }
      = { s with currentIndex := some j } := by
    unfold viewRoomEnsure
    rw [getCurrentRoomStore_some { s with currentIndex := some j } j e rfl he]
    rfl
  have key : onDispatch s (.view_room rid ral)
      = viewRoomFinish { s with currentIndex := some j } rid ral := by
    show viewRoomFinish (viewRoomEnsure (viewRoomSwitch s rid ral)) rid ral
      = viewRoomFinish { s with currentIndex := some j } rid ral
    rw [h1, h2]
  refine ⟨?_, ?_, ?_, ?_, ?_, ?_⟩
  · rw [key, viewRoomFinish_currentIndex]
  · rw [key, viewRoomFinish_map_eid]
  · rw [key, viewRoomFinish_length]
  · rw [key, viewRoomFinish_counter]
  · rw [key, viewRoomFinish_unregistered]
  · rw [key, viewRoomFinish_group_id]

/-- Witness for claim C6: the theorem applied to the reachable state holding one
room, re-viewing that same room by id; both hypotheses discharged concretely. -/
theorem c6_switch_current_only_witness :
    (onDispatch (onDispatch initialState (.view_room (some "!a:hs") none))
        (.view_room (some "!a:hs") none)).currentIndex = some 0
    ∧ (onDispatch (onDispatch initialState (.view_room (some "!a:hs") none))
        (.view_room (some "!a:hs") none)).rooms.map (fun e => e.eid)
      = (onDispatch initialState (.view_room (some "!a:hs") none)).rooms.map
          (fun e => e.eid)
    ∧ (onDispatch (onDispatch initialState (.view_room (some "!a:hs") none))
        (.view_room (some "!a:hs") none)).rooms.length
      = (onDispatch initialState (.view_room (some "!a:hs") none)).rooms.length
    ∧ (onDispatch (onDispatch initialState (.view_room (some "!a:hs") none))
        (.view_room (some "!a:hs") none)).counter
      = (onDispatch initialState (.view_room (some "!a:hs") none)).counter
    ∧ (onDispatch (onDispatch initialState (.view_room (some "!a:hs") none))
        (.view_room (some "!a:hs") none)).unregistered
      = (onDispatch initialState (.view_room (some "!a:hs") none)).unregistered
    ∧ (onDispatch (onDispatch initialState (.view_room (some "!a:hs") none))
        (.view_room (some "!a:hs") none)).group_id
      = (onDispatch initialState (.view_room (some "!a:hs") none)).group_id :=
  c6_switch_current_only (onDispatch initialState (.view_room (some "!a:hs") none))
    (some "!a:hs") none 0 (by decide) (by decide)

/-- Claim C7 (confirmed): dispatching view_group_grid twice in succession with
the same group_id yields, after the second dispatch, exactly the state after the
first dispatch; the second dispatch is a no-op on state, whatever the group
membership query would answer the second time. -/
theorem c7_grid_idempotent (s : OpenRoomsState) (gid : String) (mr1 mr2 : List String) :
    onDispatch (onDispatch s (.view_group_grid gid mr1)) (.view_group_grid gid mr2)
      = onDispatch s (.view_group_grid gid mr1) := by
  have hg : (onDispatch s (.view_group_grid gid mr1)).group_id = some gid := by
    simp only [onDispatch]
    split
    next h => exact h
    next h => rfl
  have haux : ∀ t : OpenRoomsState, t.group_id = some gid →
      onDispatch t (.view_group_grid gid mr2) = t := by
    intro t ht
    simp only [onDispatch]
    rw [if_pos ht]
  exact haux _ hg

/-- Claim C8 (confirmed): when the asynchronous alias resolution of a view_room
action fails, the failure handler forwards the view_room_error payload to the
private dispatcher of the current entry only (to nothing when no current entry
exists), and it leaves the Router State completely unchanged. -/
theorem c8_alias_failure_frame (s : OpenRoomsState) (ral err : String) :
    (resolveRoomAliasFailure s ral err).1 = s
    ∧ (resolveRoomAliasFailure s ral err).2.map Prod.fst
        = ((getCurrentRoom s).map (fun e => e.eid)).toList
    ∧ (getCurrentRoom s = none → (resolveRoomAliasFailure s ral err).2 = []) := by
  refine ⟨?_, ?_, ?_⟩
  · exact forwardAction_id_of_storeHandle s _ (fun st => rfl)
  · simp only [resolveRoomAliasFailure]
    cases getCurrentRoom s <;> rfl
  · intro h
    simp only [resolveRoomAliasFailure]
    rw [h]
    rfl

/-- Witness for claim C8: the theorem applied at the initial state (which has no
current entry, so the forwarded list is empty and the state is returned intact). -/
theorem c8_alias_failure_frame_witness :
    (resolveRoomAliasFailure initialState "#a:hs" "no room").1 = initialState
    ∧ (resolveRoomAliasFailure initialState "#a:hs" "no room").2.map Prod.fst
        = ((getCurrentRoom initialState).map (fun e => e.eid)).toList
    ∧ (getCurrentRoom initialState = none →
        (resolveRoomAliasFailure initialState "#a:hs" "no room").2 = []) :=
  c8_alias_failure_frame initialState "#a:hs" "no room"

/-- Claim C10 (confirmed): the read accessors never index out of bounds: when no
valid current entry exists (currentIndex null or at least the length of rooms),
getCurrentRoomStore returns none; when a valid current entry exists it returns
exactly the store of that entry; and getRoomStores returns exactly the stores of
the entries of rooms. -/
theorem c10_accessor_safety (s : OpenRoomsState) :
    ((∀ i, s.currentIndex = some i → s.rooms.length ≤ i) → getCurrentRoomStore s = none)
    ∧ (∀ j e, s.currentIndex = some j → s.rooms[j]? = some e →
        getCurrentRoomStore s = some e.store)
    ∧ getRoomStores s = s.rooms.map (fun e => e.store) := by
  refine ⟨?_, ?_, ?_⟩
  · intro h
    exact getCurrentRoomStore_none s (getCurrentRoom_none s h)
  · intro j e hci he
    exact getCurrentRoomStore_some s j e hci he
  · rfl

/-- Witness for claim C10: at the reachable state with currentIndex 0 and no
rooms (produced by a view_group_grid for a group with no member rooms), the
accessor still returns none, and getRoomStores is the empty list. -/
theorem c10_accessor_safety_witness :
    getCurrentRoomStore (onDispatch initialState (.view_group_grid "g" [])) = none
    ∧ getRoomStores (onDispatch initialState (.view_group_grid "g" [])) = [] :=
  ⟨(c10_accessor_safety (onDispatch initialState (.view_group_grid "g" []))).1
      (fun i _ => Nat.zero_le i),
    ((c10_accessor_safety (onDispatch initialState (.view_group_grid "g" []))).2.2).trans rfl⟩

end OpenRooms

namespace Invite

/-- Claim C3 (confirmed): when exactly one address has outcome error and the
inviter reports the failure as fatal, the reporting step shows a single-message
error report whose description is exactly the error text of that one address,
listing no other address. -/
theorem c3_single_fatal_report (addrs : List (String × String)) (inviter : Inviter)
    (a : String) (h1 : failedAddresses addrs = [a]) (h2 : inviter.fatal = true) :
    (showAnyInviteErrors addrs inviter).1 = some (.single (inviter.getErrorText a)) := by
  unfold showAnyInviteErrors
  rw [h1]
  rw [if_pos ⟨rfl, h2⟩]
  rfl

/-- Witness for claim C3: a result set with one failed address and a fatal
inviter; both hypotheses discharged concretely. -/
theorem c3_single_fatal_report_witness :
    (showAnyInviteErrors [("@u:hs", "error")]
        { fatal := true, getErrorText := fun _ => "boom" }).1
      = some (.single "boom") :=
  c3_single_fatal_report [("@u:hs", "error")]
    { fatal := true, getErrorText := fun _ => "boom" } "@u:hs" (by decide) rfl

/-- Claim C4 (confirmed): when one or more addresses have outcome error and the
single-fatal shortcut does not apply, exactly one report is shown and it is the
list of exactly the failed addresses, in result-set order, each paired with its
own error text (so no non-failed address appears); when no address has outcome
error, no report is shown. -/
theorem c4_error_report_lists_failed (addrs : List (String × String))
    (inviter : Inviter) :
    ((failedAddresses addrs ≠ []
        ∧ ¬((failedAddresses addrs).length = 1 ∧ inviter.fatal = true)) →
      (showAnyInviteErrors addrs inviter).1
        = some (.multi ((failedAddresses addrs).map
            (fun a => a ++ ": " ++ inviter.getErrorText a))))
    ∧ (failedAddresses addrs = [] → (showAnyInviteErrors addrs inviter).1 = none) := by
  constructor
  · rintro ⟨hne, hnc⟩
    unfold showAnyInviteErrors
    rw [if_neg hnc]
    rw [inviteErrorList_eq]
    rw [if_pos (by
      rw [List.length_map]
      exact List.length_pos.mpr hne)]
  · intro he
    unfold showAnyInviteErrors
    rw [inviteErrorList_eq, he]
    rw [if_neg (by simp : ¬(([] : List String).length = 1 ∧ inviter.fatal = true))]
    rw [if_neg (by simp : ¬((([] : List String).map
      (fun a => a ++ ": " ++ inviter.getErrorText a)).length > 0))]

/-- Witness for claim C4: a result set with two failed addresses and one
succeeded address, non-fatal inviter; the hypotheses of the first conjunct are
discharged concretely and the computed report is the two-entry list. -/
theorem c4_error_report_lists_failed_witness :
    (showAnyInviteErrors [("@u:hs", "error"), ("@v:hs", "error"), ("@w:hs", "success")]
        { fatal := false, getErrorText := fun a => "fail " ++ a }).1
      = some (.multi ["@u:hs: fail @u:hs", "@v:hs: fail @v:hs"]) :=
  ((c4_error_report_lists_failed
      [("@u:hs", "error"), ("@v:hs", "error"), ("@w:hs", "success")]
      { fatal := false, getErrorText := fun a => "fail " ++ a }).1
    ⟨by decide, by decide⟩).trans (by decide)

/-- Claim C9 (confirmed): the reporting step returns the Invite Result Set it was
given, unchanged, whichever report branch was taken. -/
theorem c9_result_set_unchanged (addrs : List (String × String)) (inviter : Inviter) :
    (showAnyInviteErrors addrs inviter).2 = addrs := by
  unfold showAnyInviteErrors
  split
  · rfl
  · split
    · rfl
    · rfl

end Invite
